import Mathlib

/-!
Verification of the tlRender frame-serving pipeline (`src/lib/tlrCore/Timeline.cpp`)
against its natural-language specification.

The embedding models track-domain times as exact rationals (the number of frames
at the track's rate); the opentime collaborator library's range arithmetic is
modelled per the specification (half-open ranges, `endInclusive = start +
duration - 1` frame).
-/

namespace Tlr

/-- A time range `{ startInclusive, duration }` in track-domain frames
(opentime `TimeRange`, per spec section 4.4). -/
structure TimeRange where
  start_time : ℚ
  duration : ℚ
deriving DecidableEq, Repr

/-- Exclusive end of a range: `start + duration`. -/
def TimeRange.end_time_exclusive (r : TimeRange) : ℚ :=
  r.start_time + r.duration

/-- Inclusive end of a range: `start + duration - 1` frame (spec section 4.4:
`endInclusive = start + duration - 1/rate`, with times counted in frames). -/
def TimeRange.end_time_inclusive (r : TimeRange) : ℚ :=
  r.start_time + r.duration - 1

/-- Half-open containment test, `start <= t < start + duration`
(opentime `TimeRange::contains`). -/
def TimeRange.containsQ (r : TimeRange) (t : ℚ) : Bool :=
  decide (r.start_time ≤ t) && decide (t < r.end_time_exclusive)

/-- Half-open range intersection (opentime `TimeRange::intersects`,
spec section 4.4: "Intersection uses half-open semantics"). -/
def TimeRange.intersectsR (a b : TimeRange) : Bool :=
  decide (a.start_time < b.end_time_exclusive) &&
  decide (b.start_time < a.end_time_exclusive)

/-- `TimeRange::range_from_start_end_time`: a range from an inclusive start to
an exclusive end. -/
def TimeRange.range_from_start_end_time (s e : ℚ) : TimeRange :=
  ⟨s, e - s⟩

/-- `timeline::Transition` enumeration from `Timeline.cpp` (`None`, `Dissolve`). -/
inductive Transition where
  | none
  | dissolve
deriving DecidableEq, Repr

/-- The OTIO SMPTE dissolve transition-type tag. -/
def SMPTE_Dissolve : String := "SMPTE_Dissolve"

/-- `timeline::toTransition`: maps the OTIO transition-type string to the
`Transition` enumeration; unknown kinds degrade to `None`. -/
def toTransition (value : String) : Transition :=
  if value = SMPTE_Dissolve then Transition.dissolve else Transition.none

/-- An `otio::Transition` item: a type tag and the in/out offsets reaching into
its neighbors (offsets in track-domain frames). -/
structure OtioTransition where
  transition_type : String
  in_offset : ℚ
  out_offset : ℚ
deriving DecidableEq, Repr

/-- A child of an `otio::Track`: a clip (with an identifier standing for the
clip object and its `trimmed_range_in_parent`), a gap, or a transition.
Transitions do not occupy track time. -/
inductive TrackChild where
  | clip (id : Nat) (range : TimeRange)
  | gap (range : TimeRange)
  | transition (t : OtioTransition)
deriving DecidableEq, Repr

/-- `trimmed_range_in_parent` of an item child; transitions have none. -/
def TrackChild.itemRange : TrackChild → Option TimeRange
  | TrackChild.clip _ r => some r
  | TrackChild.gap r => some r
  | TrackChild.transition _ => Option.none

/-- View a child as a transition. -/
def TrackChild.asTransition : TrackChild → Option OtioTransition
  | TrackChild.transition t => some t
  | _ => Option.none

/-- View a child as a clip, returning its identifier. -/
def TrackChild.asClipId : TrackChild → Option Nat
  | TrackChild.clip i _ => some i
  | _ => Option.none

/-- The two children following the current one in a track (the current item's
right neighbor per `otio::Track::neighbors_of`, and that neighbor's own right
neighbor). -/
def nextTwo : List TrackChild → Option TrackChild × Option TrackChild
  | [] => (Option.none, Option.none)
  | [a] => (some a, Option.none)
  | a :: b :: _ => (some a, some b)

/-- The source of a per-layer image: either absent (a default-constructed,
invalid future) or the result of `readVideoFrame(track, clip, time, ...)`. -/
inductive ImageSrc where
  | none
  | read (clipId : Nat) (time : ℚ)
deriving DecidableEq, Repr

/-- `Timeline::Private::LayerData` as produced by the composition walk:
primary and secondary image reads, transition kind and value. -/
structure LayerData where
  image : ImageSrc := ImageSrc.none
  imageB : ImageSrc := ImageSrc.none
  transition : Transition := Transition.none
  transitionValue : ℚ := 0
deriving DecidableEq, Repr

/-- `Timeline::Private::transitionValue`: `(frame - in) / (out - in)`. -/
def transitionValue (frame i o : ℚ) : ℚ :=
  (frame - i) / (o - i)

/-- The layer before neighbor transitions are examined: the item's own read
(`data.image = readVideoFrame(track, clip, time, ...)` for clips, nothing for
gaps). -/
def initialLayer (child : TrackChild) (t : ℚ) : LayerData :=
  { image :=
      match child.asClipId with
      | some c => ImageSrc.read c t
      | Option.none => ImageSrc.none }

/-- The right-neighbor transition rule of `Timeline::Private::frameRequests`:
if the next child `n1` is a transition and `time > range.end_time_inclusive()
- in_offset`, set the transition kind and value and read the transition's own
right neighbor `n2` (when it is a clip) as the secondary image. -/
def applyRightTransition (n1 n2 : Option TrackChild) (range : TimeRange)
    (t : ℚ) (d : LayerData) : LayerData :=
  match n1.bind TrackChild.asTransition with
  | some tr =>
    if range.end_time_inclusive - tr.in_offset < t then
      let base : LayerData :=
        { d with
          transition := toTransition tr.transition_type
          transitionValue :=
            Tlr.transitionValue t
              (range.end_time_inclusive - tr.in_offset)
              (range.end_time_inclusive + tr.out_offset + 1) }
      match n2.bind TrackChild.asClipId with
      | some cB => { base with imageB := ImageSrc.read cB t }
      | Option.none => base
    else d
  | Option.none => d

/-- The left-neighbor transition rule of `Timeline::Private::frameRequests`:
if the previous child `p1` is a transition and `time < range.start_time() +
out_offset`, swap primary and secondary, set the transition kind and value,
and read the transition's own left neighbor `p2` (when it is a clip) as the
primary image. -/
def applyLeftTransition (p2 p1 : Option TrackChild) (range : TimeRange)
    (t : ℚ) (d : LayerData) : LayerData :=
  match p1.bind TrackChild.asTransition with
  | some tr =>
    if t < range.start_time + tr.out_offset then
      let base : LayerData :=
        { d with
          image := d.imageB
          imageB := d.image
          transition := toTransition tr.transition_type
          transitionValue :=
            Tlr.transitionValue t
              (range.start_time - tr.in_offset - 1)
              (range.start_time + tr.out_offset) }
      match p2.bind TrackChild.asClipId with
      | some cB => { base with image := ImageSrc.read cB t }
      | Option.none => base
    else d
  | Option.none => d

/-- The per-item body of the request traversal in
`Timeline::Private::frameRequests`, for an item with previous children
`p2, p1` and next children `n1, n2`: when the item's trimmed track-range
contains the (global-start-adjusted) time, assemble a layer: the item's own
read, then the right-neighbor rule, then the left-neighbor rule. -/
def layerFor (p2 p1 : Option TrackChild) (child : TrackChild)
    (n1 n2 : Option TrackChild) (t : ℚ) : Option LayerData :=
  match child.itemRange with
  | some range =>
    if range.containsQ t then
      some (applyLeftTransition p2 p1 range t
        (applyRightTransition n1 n2 range t (initialLayer child t)))
    else Option.none
  | Option.none => Option.none

/-- The traversal over a track's children in order, carrying the two previous
children as the neighbor context. -/
def trackLayersAux (p2 p1 : Option TrackChild) (t : ℚ) :
    List TrackChild → List LayerData
  | [] => []
  | child :: rest =>
    let n := nextTwo rest
    (match layerFor p2 p1 child n.1 n.2 t with
     | some d => [d]
     | Option.none => []) ++ trackLayersAux p1 (some child) t rest

/-- All layers a single video track contributes at track time `t`, in child
order. -/
def trackLayers (track : List TrackChild) (t : ℚ) : List LayerData :=
  trackLayersAux Option.none Option.none t track

/-- Does the left-neighbor transition rule fire for an item with previous
child `p1` and trimmed parent range `range` at time `t`? -/
def leftZoneFires (p1 : Option TrackChild) (range : TimeRange) (t : ℚ) : Bool :=
  match p1.bind TrackChild.asTransition with
  | some tr => decide (t < range.start_time + tr.out_offset)
  | Option.none => false

/-! ### Rational time in value/rate form

`otime::RationalTime` carries a numerator `value` at a `rate`; the media-time
derivation of `Timeline::Private::readVideoFrame` mixes rates, so here the full
value/rate form is modelled (exact rationals in place of the doubles of the
collaborator library, per spec section 3: "Presentation time is a rational
number"). -/

/-- `otime::RationalTime`: a numerator `value` at a `rate`. -/
structure RationalTime where
  value : ℚ
  rate : ℚ
deriving DecidableEq, Repr

/-- The invalid-time sentinel `time::invalidTime` (value -1 at rate -1). -/
def invalidTime : RationalTime := ⟨-1, -1⟩

/-- `RationalTime::rescaled_to`: multiply the value by `targetRate /
currentRate` (spec section 4.4). -/
def RationalTime.rescaled_to (t : RationalTime) (r : ℚ) : RationalTime :=
  ⟨t.value * (r / t.rate), r⟩

/-- `otime` addition: the result carries the larger of the two rates, with the
other operand rescaled to it. -/
def RationalTime.add (a b : RationalTime) : RationalTime :=
  if a.rate < b.rate then ⟨a.value * (b.rate / a.rate) + b.value, b.rate⟩
  else ⟨a.value + b.value * (a.rate / b.rate), a.rate⟩

/-- `otime` subtraction: addition of the negated operand. -/
def RationalTime.sub (a b : RationalTime) : RationalTime :=
  a.add ⟨-b.value, b.rate⟩

/-- `otio::TimeTransform` (spec section 4.4): `{ offset, scale }`. -/
structure TimeTransform where
  offset : RationalTime := ⟨0, 1⟩
  scale : ℚ := 1
deriving DecidableEq, Repr

/-- Transform composition `A·B` (A applied after B): `{ offset = A.offset +
A.scale * B.offset, scale = A.scale * B.scale }` (spec section 4.4). -/
def TimeTransform.applied_to_transform (a b : TimeTransform) : TimeTransform :=
  ⟨a.offset.add ⟨a.scale * b.offset.value, b.offset.rate⟩, a.scale * b.scale⟩

/-- Applying a transform to a time: `offset + scale * t` (spec section 4.4). -/
def TimeTransform.applied_to_time (tt : TimeTransform) (t : RationalTime) : RationalTime :=
  RationalTime.add ⟨tt.scale * t.value, t.rate⟩ tt.offset

/-- A transition neighboring a clip, with its offsets as rational times (used
by the media-time derivation and reader eviction). -/
structure TransitionR where
  in_offset : RationalTime
  out_offset : RationalTime
deriving DecidableEq, Repr

/-- The data of one clip that `Timeline::Private::readVideoFrame` consults:
its `LinearTimeWarp` effect scalars in order, its `trimmed_range` start, its
`range_in_parent` start (used by the track-to-clip time transformation of the
collaborator library), its left track neighbor when that is a transition, and
the native rate of the opened media
(`reader.info.videoTimeRange.duration().rate()`). -/
structure ClipModel where
  effects : List ℚ
  trimmedRangeStart : RationalTime
  rangeInParentStart : RationalTime
  leftTransition : Option TransitionR
  mediaRate : ℚ
deriving DecidableEq, Repr

/-- `otio::Track::transformed_time` from track time to the time domain of a
clip sitting directly in the track: subtract the clip's start in the parent and
add its trimmed start (the collaborator library's nested item offsets, spec
section 4.3). -/
def transformedTimeTrackToClip (c : ClipModel) (t : RationalTime) : RationalTime :=
  (t.sub c.rangeInParentStart).add c.trimmedRangeStart

/-- The accumulated clip-level time transform of
`Timeline::Private::readVideoFrame`: for each `LinearTimeWarp` effect,
`timeTransform = TimeTransform(RationalTime(), time_scalar).applied_to(timeTransform)`. -/
def clipTimeTransform (scalars : List ℚ) : TimeTransform :=
  scalars.foldl
    (fun acc s => TimeTransform.applied_to_transform ⟨⟨0, 1⟩, s⟩ acc)
    {}

/-- The media time handed to the reader by
`Timeline::Private::readVideoFrame`: the transition-adjusted start time, the
track-to-clip transformed time, the warp applied to their difference, the
rescale to the media's native rate, and the floor to the frame grid. -/
def readVideoFrameTime (c : ClipModel) (time : RationalTime) : RationalTime :=
  let timeTransform := clipTimeTransform c.effects
  let startTime :=
    match c.leftTransition with
    | some tr => c.trimmedRangeStart.sub tr.in_offset
    | Option.none => c.trimmedRangeStart
  let clipTime := transformedTimeTrackToClip c time
  let frameTime := startTime.add (timeTransform.applied_to_time (clipTime.sub startTime))
  let readTime := frameTime.rescaled_to c.mediaRate
  ⟨(⌊readTime.value⌋ : ℤ), readTime.rate⟩

/-- The spec's media-time derivation `mediaTimeOf` (section 4.3), written
directly over numerators at a common rate `r`: `startMedia = trimmedStart -
leftTransition.inOffset`; `clipLocal = t - rangeInParentStart + trimmedStart`;
warps composed as a plain product; applied to `(clipLocal - startMedia)` with
`startMedia` re-added; rescaled to the media rate and floored. -/
def mediaTimeOf_spec (c : ClipModel) (t : RationalTime) : RationalTime :=
  let startMedia : ℚ :=
    c.trimmedRangeStart.value -
      (match c.leftTransition with
       | some tr => tr.in_offset.value
       | Option.none => 0)
  let clipLocal : ℚ := t.value - c.rangeInParentStart.value + c.trimmedRangeStart.value
  let k : ℚ := c.effects.foldl (· * ·) 1
  let frameV : ℚ := startMedia + k * (clipLocal - startMedia)
  let readV : ℚ := frameV * (c.mediaRate / t.rate)
  ⟨(⌊readV⌋ : ℤ), c.mediaRate⟩

/-! ### The scheduler: requests, futures, readers, and the facade state

`std::future<avio::VideoFrame>` members of `Timeline::Private::LayerData` are
modelled by their observable behavior: whether the future is valid
(default-constructed futures are not), whether a non-blocking poll reports it
ready this tick, and the image its `get()` (eventually) delivers. Images are
identifiers. -/

/-- A `std::future<avio::VideoFrame>` as the scheduler observes it. -/
structure VideoFuture where
  valid : Bool := false
  ready : Bool := false
  image : Option Nat := Option.none
deriving DecidableEq, Repr

/-- `Timeline::Private::LayerData` on the scheduler side: the primary and
secondary futures plus the transition kind and value. -/
structure RLayerData where
  image : VideoFuture := {}
  imageB : VideoFuture := {}
  transition : Transition := Transition.none
  transitionValue : ℚ := 0
deriving DecidableEq, Repr

/-- `Timeline::Private::Request`: the requested presentation time, video
layer, and the per-layer data filled in at dispatch. -/
structure Request where
  time : RationalTime := invalidTime
  videoLayer : Nat := 0
  layerData : List RLayerData := []
deriving DecidableEq, Repr

/-- `timeline::FrameLayer`: one blended output layer. -/
structure FrameLayer where
  image : Option Nat := Option.none
  imageB : Option Nat := Option.none
  transition : Transition := Transition.none
  transitionValue : ℚ := 0
deriving DecidableEq, Repr

/-- Modelled from the spec: `timeline::Frame` is declared in
`tlrCore/Timeline.h`, which is not among the sources at hand; per spec section
3 it is `{ time, layers[] }`, and its default-constructed time is the
invalid-time sentinel (the same default the `Request` struct in `Timeline.cpp`
spells out, and the successor `VideoData` struct in the tree). -/
structure Frame where
  time : RationalTime := invalidTime
  layers : List FrameLayer := []
deriving DecidableEq, Repr

/-- Layer assembly shared by the shutdown cleanup in `Timeline::_init` and the
completion scan in `Timeline::Private::frameRequests`: a valid future
contributes its image (`get()`), an invalid one contributes nothing. -/
def assembleLayer (d : RLayerData) : FrameLayer :=
  { image := if d.image.valid then d.image.image else Option.none
    imageB := if d.imageB.valid then d.imageB.image else Option.none
    transition := d.transition
    transitionValue := d.transitionValue }

/-- The `Frame` fulfilled for a request: the request's time and one
`FrameLayer` per `LayerData`. -/
def assembleFrame (r : Request) : Frame :=
  { time := r.time, layers := r.layerData.map assembleLayer }

/-- One layer's readiness check in the completion scan: every valid future
polls ready (`wait_for(0) == ready`). -/
def RLayerData.allReady (d : RLayerData) : Bool :=
  (!d.image.valid || d.image.ready) && (!d.imageB.valid || d.imageB.ready)

/-- A request is finished when all of its valid per-layer futures poll ready. -/
def Request.allReady (r : Request) : Bool :=
  r.layerData.all RLayerData.allReady

/-- The completion scan over `requestsInProgress`: fulfill (and erase) every
request whose valid futures are all ready; keep the others. Returns the
remaining in-progress list and the fulfilled frames in list order. -/
def completeRequests (inProgress : List Request) :
    List Request × List Frame :=
  (inProgress.filter (fun r => !r.allReady),
   (inProgress.filter Request.allReady).map assembleFrame)

/-- One entry of the reader registry `Timeline::Private::readers`, with the
data `stopReaders` consults: the clip key, the clip's trimmed range transformed
to the root time domain (`transformed_time_range(trimmedRange, ancestor)`, a
collaborator computation), the clip's neighboring transitions in its track,
and the reader's `hasVideoFrames()` / `hasStopped()` reports. -/
structure ReaderEntry where
  clip : Nat
  clipRange : TimeRange
  leftTransition : Option OtioTransition := Option.none
  rightTransition : Option OtioTransition := Option.none
  hasVideoFrames : Bool := false
  hasStopped : Bool := false
deriving DecidableEq, Repr

/-- The effective range computed by `Timeline::Private::stopReaders`: the
clip's root-domain range extended left by the left transition's in-offset and
right by the right transition's out-offset, then translated by the global
start time. -/
def readerRange (globalStartTime : ℚ) (e : ReaderEntry) : TimeRange :=
  let startTime :=
    e.clipRange.start_time -
      (match e.leftTransition with
       | some tr => tr.in_offset
       | Option.none => 0)
  let endTime :=
    e.clipRange.start_time + e.clipRange.duration +
      (match e.rightTransition with
       | some tr => tr.out_offset
       | Option.none => 0)
  TimeRange.range_from_start_end_time
    (globalStartTime + startTime) (globalStartTime + endTime)

/-- The eviction condition of `Timeline::Private::stopReaders`: the effective
range intersects no active range, and the reader reports no pending video
frames. -/
def shouldStop (globalStartTime : ℚ) (activeRanges : List TimeRange)
    (e : ReaderEntry) : Bool :=
  (activeRanges.all fun a => !(readerRange globalStartTime e).intersectsR a) &&
    !e.hasVideoFrames

/-- `Timeline::Private::stopReaders`: partition the registry into the readers
kept open and the readers stopped and moved to the reap list. -/
def stopReadersFn (globalStartTime : ℚ) (activeRanges : List TimeRange)
    (readers : List ReaderEntry) : List ReaderEntry × List ReaderEntry :=
  (readers.filter (fun e => !shouldStop globalStartTime activeRanges e),
   readers.filter (shouldStop globalStartTime activeRanges))

/-- `Timeline::Private::delReaders`: drop every stopped reader whose
`hasStopped()` reports true. -/
def delReadersFn (stoppedReaders : List ReaderEntry) : List ReaderEntry :=
  stoppedReaders.filter fun e => !e.hasStopped

/-- The shared state of `Timeline::Private` the claims are about. -/
structure TimelineState where
  requests : List Request := []
  requestsInProgress : List Request := []
  requestCount : Nat := 16
  activeRanges : List TimeRange := []
  globalStartTime : ℚ := 0
  readers : List ReaderEntry := []
  stoppedReaders : List ReaderEntry := []
  stopped : Bool := false
  running : Bool := true

/-- The promotion loop of `Timeline::Private::frameRequests`: `while
(!requests.empty() && (requestsInProgress.size() + newRequests.size()) <
requestCount)` move the front pending request into the new-request list.
Returns the remaining pending queue and the promoted requests. -/
def gatherNew (requests acc : List Request) (inProgressCount budget : Nat) :
    List Request × List Request :=
  match requests with
  | [] => ([], acc)
  | r :: rest =>
    if inProgressCount + acc.length < budget then
      gatherNew rest (acc ++ [r]) inProgressCount budget
    else (r :: rest, acc)

/-- Promotion applied to the state. -/
def promote (s : TimelineState) : TimelineState × List Request :=
  let p := gatherNew s.requests [] s.requestsInProgress.length s.requestCount
  ({ s with requests := p.1 }, p.2)

/-- Observable events of one scheduler tick, in the order they happen. -/
inductive TickEvent where
  | dispatch (time : RationalTime)
  | evict (clip : Nat)
  | reap (clip : Nat)
deriving DecidableEq, Repr

/-- `Timeline::Private::frameRequests`: promote pending requests within the
budget, dispatch each promoted request (the composition walk and
`readVideoFrame` calls, abstracted by `fill`, populate its `layerData`; the
request is then pushed onto `requestsInProgress`), then run the completion
scan. Returns the new state, the fulfilled frames, and the dispatch events. -/
def frameRequestsFn (fill : Request → List RLayerData) (s : TimelineState) :
    TimelineState × List Frame × List TickEvent :=
  let p := promote s
  let dispatched := p.2.map fun r => { r with layerData := fill r }
  let inProgress := p.1.requestsInProgress ++ dispatched
  let c := completeRequests inProgress
  ({ p.1 with requestsInProgress := c.1 },
   c.2,
   dispatched.map fun r => TickEvent.dispatch r.time)

/-- `Timeline::Private::tick`: `frameRequests(); stopReaders(); delReaders();`
in that order. The returned trace lists the tick's dispatch events, then its
eviction events, then its reap events. -/
def tickFn (fill : Request → List RLayerData) (s : TimelineState) :
    TimelineState × List Frame × List TickEvent :=
  let f := frameRequestsFn fill s
  let s1 := f.1
  let sr := stopReadersFn s1.globalStartTime s1.activeRanges s1.readers
  let s2 := { s1 with readers := sr.1, stoppedReaders := s1.stoppedReaders ++ sr.2 }
  let reaped := s2.stoppedReaders.filter ReaderEntry.hasStopped
  let s3 := { s2 with stoppedReaders := delReadersFn s2.stoppedReaders }
  (s3, f.2.1,
   f.2.2 ++ sr.2.map (fun e => TickEvent.evict e.clip) ++
     reaped.map (fun e => TickEvent.reap e.clip))

/-- The caller-visible future returned by `Timeline::getFrame`: either queued
(to be fulfilled by the scheduler) or already resolved. -/
inductive FrameFuture where
  | queued
  | resolved (f : Frame)
deriving DecidableEq, Repr

/-- `Timeline::getFrame`: under the lock, if the facade is not stopped the
request is appended to the pending queue and the future is left to the
scheduler; if it is stopped, the promise is immediately fulfilled with a
default-constructed `Frame()` and the state is untouched. -/
def getFrameFn (s : TimelineState) (time : RationalTime) (videoLayer : Nat) :
    TimelineState × FrameFuture :=
  if s.stopped then (s, FrameFuture.resolved {})
  else
    ({ s with requests := s.requests ++ [{ time := time, videoLayer := videoLayer }] },
     FrameFuture.queued)

/-- What happens to caller-visible futures and readers during
`Timeline::cancelFrames`. `resolvedEmpty` lists the request times whose
promises the call fulfills with an empty frame; `abandoned` lists the request
times whose promises the call destroys unfulfilled (their futures then report
a broken promise instead of resolving with a `Frame`); `readerCancels` lists
the clips whose readers get `cancelVideoFrames()`. -/
structure CancelEffects where
  resolvedEmpty : List RationalTime
  abandoned : List RationalTime
  readerCancels : List Nat
deriving DecidableEq, Repr

/-- `Timeline::cancelFrames`: under the lock, `requests.clear()` — which
destroys every pending request's `std::promise<Frame>` without `set_value`,
leaving the futures broken — and `cancelVideoFrames()` on every open reader.
In-progress requests are untouched. -/
def cancelFramesFn (s : TimelineState) : TimelineState × CancelEffects :=
  ({ s with requests := [] },
   { resolvedEmpty := []
     abandoned := s.requests.map Request.time
     readerCancels := s.readers.map ReaderEntry.clip })

/-- The shutdown cleanup at the end of the scheduler thread in
`Timeline::_init`: set `stopped`, move every pending and in-progress request
into the cleanup list, and fulfill each with a frame carrying the request's
time and the layers assembled from its valid futures (blocking `get()` on each
valid future). -/
def shutdownCleanup (s : TimelineState) : TimelineState × List Frame :=
  ({ s with stopped := true, requests := [], requestsInProgress := [] },
   (s.requests ++ s.requestsInProgress).map assembleFrame)

/-- `Timeline::~Timeline`: set `running = false` and join the scheduler
thread; joining means the thread's shutdown cleanup has run to completion, so
the destructor returns only after every outstanding promise is fulfilled. The
returned frames are the fulfillments that happen before the destructor
returns. -/
def destructorFn (s : TimelineState) : TimelineState × List Frame :=
  shutdownCleanup { s with running := false }

/-- Caller and scheduler operations interleaved on the shared state: a
`getFrame` submission or one scheduler tick (with `fill` abstracting the
dispatch work of that tick). -/
inductive SchedulerOp where
  | submit (time : RationalTime) (videoLayer : Nat)
  | tick (fill : Request → List RLayerData)

/-- One operation applied to the state. -/
def stepOp (s : TimelineState) : SchedulerOp → TimelineState
  | SchedulerOp.submit t l => (getFrameFn s t l).1
  | SchedulerOp.tick fill => (tickFn fill s).1

/-- A sequence of operations applied to the state. -/
def runOps (ops : List SchedulerOp) (s : TimelineState) : TimelineState :=
  ops.foldl stepOp s

/-! ### Concrete fixtures used to instantiate the theorems -/

/-- A reader over a 48-frame clip with no neighboring transitions, idle. -/
def exampleReader : ReaderEntry :=
  { clip := 7, clipRange := ⟨0, 48⟩ }

/-- A facade state with one pending request and one open reader. -/
def exampleCancelState : TimelineState :=
  { requests := [{ time := ⟨10, 24⟩ }], readers := [exampleReader] }

/-- An in-progress request with one valid, not-yet-ready layer future. -/
def examplePendingRequest : Request :=
  { time := ⟨2, 24⟩,
    layerData := [{ image := { valid := true, ready := false, image := some 3 } }] }

/-- An in-progress request whose single valid layer future is ready. -/
def exampleReadyRequest : Request :=
  { time := ⟨4, 24⟩,
    layerData := [{ image := { valid := true, ready := true, image := some 9 } }] }

/-- A facade state with one pending and one in-progress request. -/
def exampleDestructorState : TimelineState :=
  { requests := [{ time := ⟨1, 24⟩ }],
    requestsInProgress := [examplePendingRequest] }

/-- Two 48-frame clips joined by a dissolve with offsets 6/6 (end-to-end
scenario 2 of the spec). -/
def exampleDissolveTrack : List TrackChild :=
  [TrackChild.clip 0 ⟨0, 48⟩,
   TrackChild.transition ⟨SMPTE_Dissolve, 6, 6⟩,
   TrackChild.clip 1 ⟨48, 48⟩]

/-- A 2-frame clip flanked by transitions on both sides whose dissolve zones
overlap at track time 10. -/
def exampleOverlapTrack : List TrackChild :=
  [TrackChild.clip 0 ⟨0, 10⟩,
   TrackChild.transition ⟨SMPTE_Dissolve, 1, 2⟩,
   TrackChild.clip 1 ⟨10, 2⟩,
   TrackChild.transition ⟨SMPTE_Dissolve, 2, 1⟩,
   TrackChild.clip 2 ⟨12, 8⟩]

/-- A clip with one 2x linear time warp, a trimmed range starting at frame 12
of its media, a left transition reaching 6 frames in, and 30 fps media inside
a 24 fps track. -/
def exampleClip : ClipModel :=
  { effects := [2]
    trimmedRangeStart := ⟨12, 24⟩
    rangeInParentStart := ⟨100, 24⟩
    leftTransition := some ⟨⟨6, 24⟩, ⟨6, 24⟩⟩
    mediaRate := 30 }

/-- A facade state with one pending request (within budget) and one idle open
reader not covered by any active range: one tick both dispatches and evicts. -/
def exampleTickState : TimelineState :=
  { requests := [{ time := ⟨5, 24⟩ }], readers := [exampleReader] }

/-- A facade whose scheduler thread has exited (`stopped` set). -/
def exampleStoppedState : TimelineState :=
  { stopped := true }

/-! ## Theorems -/

/-- Claim C1 — counterexample. `cancelFrames()` merely clears the pending
list: the cleared requests' promises are destroyed unfulfilled (their futures
break), so a pending request exists whose future is NOT resolved with an empty
Frame, contrary to the claim. -/
theorem cancelFrames_pending_unresolved_cex :
    ∃ r, r ∈ exampleCancelState.requests ∧
      r.time ∉ (cancelFramesFn exampleCancelState).2.resolvedEmpty := by
  refine ⟨{ time := ⟨10, 24⟩ }, ?_, ?_⟩
  · simp [exampleCancelState]
  · simp [cancelFramesFn]

/-- Claim C1 — amended: `cancelFrames()` empties the pending queue, abandoning
every pending request's promise without fulfilling it (no future is resolved
with an empty Frame; each breaks instead), invokes `cancelVideoFrames` on every
open reader, and leaves the in-progress requests untouched. -/
theorem cancelFrames_amended (s : TimelineState) :
    (cancelFramesFn s).1.requests = [] ∧
    (cancelFramesFn s).2.resolvedEmpty = [] ∧
    (cancelFramesFn s).2.abandoned = s.requests.map Request.time ∧
    (cancelFramesFn s).2.readerCancels = s.readers.map ReaderEntry.clip ∧
    (cancelFramesFn s).1.requestsInProgress = s.requestsInProgress := by
  simp [cancelFramesFn]

/-- Claim C2: destroying the facade joins the scheduler thread, whose shutdown
cleanup fulfills every outstanding request (pending or in-progress) with a
frame carrying the request's time and layers assembled from its valid layer
futures, before the destructor returns. -/
theorem destructor_resolves_outstanding (s : TimelineState) (r : Request)
    (h : r ∈ s.requests ++ s.requestsInProgress) :
    assembleFrame r ∈ (destructorFn s).2 ∧
    (assembleFrame r).time = r.time ∧
    (assembleFrame r).layers = r.layerData.map assembleLayer ∧
    (destructorFn s).1.requests = [] ∧
    (destructorFn s).1.requestsInProgress = [] ∧
    (destructorFn s).1.running = false := by
  refine ⟨?_, rfl, rfl, rfl, rfl, rfl⟩
  simp only [destructorFn, shutdownCleanup]
  exact List.mem_map_of_mem assembleFrame h

/-- Claim C2 — witness at a state with one pending and one in-progress
request. -/
theorem destructor_resolves_outstanding_witness :
    ({ time := ⟨1, 24⟩ } : Request) ∈
        exampleDestructorState.requests ++ exampleDestructorState.requestsInProgress ∧
      assembleFrame { time := ⟨1, 24⟩ } ∈ (destructorFn exampleDestructorState).2 := by
  refine ⟨by simp [exampleDestructorState], ?_⟩
  exact (destructor_resolves_outstanding exampleDestructorState { time := ⟨1, 24⟩ }
    (by simp [exampleDestructorState])).1

/-- When the left-neighbor transition zone does not contain `t`, the left rule
leaves the layer unchanged. -/
theorem applyLeftTransition_no_fire (p2 p1 : Option TrackChild) (range : TimeRange)
    (t : ℚ) (h : leftZoneFires p1 range t = false) (d : LayerData) :
    applyLeftTransition p2 p1 range t d = d := by
  unfold applyLeftTransition
  unfold leftZoneFires at h
  cases hp : p1.bind TrackChild.asTransition with
  | none => rfl
  | some tr =>
    rw [hp] at h
    simp only []
    rw [if_neg]
    simpa using h

/-- The initial layer of a clip item is the clip's own read. -/
theorem initialLayer_clip (cid : Nat) (range : TimeRange) (t : ℚ) :
    initialLayer (TrackChild.clip cid range) t = { image := ImageSrc.read cid t } :=
  rfl

/-- Claim C3 — counterexample. At `exampleOverlapTrack`, track time 10, the
middle clip's right-neighbor rule fires (its range `[10,12)` contains 10 and
`10 > 11 - 2`), yet the produced layer's phase is the LEFT rule's `1/2`, not
the right rule's `(10-9)/(13-9) = 1/4`, and its secondary is the middle clip's
own read, not the right transition's neighbor clip 2: when both zones overlap,
the left rule, running second, overwrites the right rule's results. -/
theorem transition_rules_cex :
    trackLayers exampleOverlapTrack 10 =
      [{ image := ImageSrc.read 0 10, imageB := ImageSrc.read 1 10,
         transition := Transition.dissolve, transitionValue := 1/2 }] ∧
    (⟨10, 2⟩ : TimeRange).containsQ 10 = true ∧
    (⟨10, 2⟩ : TimeRange).end_time_inclusive - 2 < 10 ∧
    ((1 : ℚ)/2 ≠ (10 - 9) / (13 - 9) ∧
      ImageSrc.read 1 10 ≠ ImageSrc.read 2 10) := by
  refine ⟨?_, ?_, ?_, ?_, ?_⟩
  · norm_num [trackLayers, exampleOverlapTrack, trackLayersAux, nextTwo, layerFor,
      applyLeftTransition, applyRightTransition, initialLayer, TimeRange.containsQ,
      TimeRange.end_time_exclusive, TimeRange.end_time_inclusive, toTransition,
      SMPTE_Dissolve, transitionValue, TrackChild.itemRange, TrackChild.asTransition,
      TrackChild.asClipId]
  · norm_num [TimeRange.containsQ, TimeRange.end_time_exclusive]
  · norm_num [TimeRange.end_time_inclusive]
  · norm_num
  · simp

/-- Claim C3 — amended: for a clip item whose trimmed track-range contains
`t`: (a) if the right neighbor is a transition, `t > itemEndInclusive -
inOffset`, AND the left-neighbor rule does not also fire at `t`, the layer's
kind is set from the transition, its phase is `(t-a)/(b-a)` with `a =
itemEndInclusive - inOffset`, `b = itemEndInclusive + outOffset + 1`, its
primary is the clip's own read, and its secondary is read from the
transition's right-neighbor clip at the same time; (b) if the left neighbor is
a transition and `t < itemStart + outOffset`, then — unconditionally —
primary and secondary are swapped (the secondary receives the primary produced
by the right-neighbor processing), the phase uses `a = itemStart - inOffset -
1`, `b = itemStart + outOffset`, and the primary is read from the transition's
left-neighbor clip. When both zones contain `t`, the left rule wins. -/
theorem transition_rules_amended (p2 p1 : Option TrackChild) (cid : Nat)
    (range : TimeRange) (n1 n2 : Option TrackChild) (t : ℚ)
    (hcont : range.containsQ t = true) :
    (∀ tr, n1 = some (TrackChild.transition tr) →
      range.end_time_inclusive - tr.in_offset < t →
      leftZoneFires p1 range t = false →
      ∃ d, layerFor p2 p1 (TrackChild.clip cid range) n1 n2 t = some d ∧
        d.transition = toTransition tr.transition_type ∧
        d.transitionValue =
          (t - (range.end_time_inclusive - tr.in_offset)) /
            ((range.end_time_inclusive + tr.out_offset + 1) -
              (range.end_time_inclusive - tr.in_offset)) ∧
        d.image = ImageSrc.read cid t ∧
        (∀ cB rB, n2 = some (TrackChild.clip cB rB) → d.imageB = ImageSrc.read cB t)) ∧
    (∀ tr, p1 = some (TrackChild.transition tr) →
      t < range.start_time + tr.out_offset →
      ∃ d, layerFor p2 p1 (TrackChild.clip cid range) n1 n2 t = some d ∧
        d.transition = toTransition tr.transition_type ∧
        d.transitionValue =
          (t - (range.start_time - tr.in_offset - 1)) /
            ((range.start_time + tr.out_offset) -
              (range.start_time - tr.in_offset - 1)) ∧
        d.imageB =
          (applyRightTransition n1 n2 range t
            (initialLayer (TrackChild.clip cid range) t)).image ∧
        (∀ cB rB, p2 = some (TrackChild.clip cB rB) → d.image = ImageSrc.read cB t)) := by
  constructor
  · intro tr hn1 hgt hleft
    subst hn1
    refine ⟨applyRightTransition (some (TrackChild.transition tr)) n2 range t
      (initialLayer (TrackChild.clip cid range) t), ?_, ?_, ?_, ?_, ?_⟩
    · simp [layerFor, TrackChild.itemRange, hcont,
        applyLeftTransition_no_fire p2 p1 range t hleft]
    · cases hc : n2.bind TrackChild.asClipId <;>
        simp [applyRightTransition, Option.some_bind, TrackChild.asTransition,
          if_pos hgt, hc]
    · cases hc : n2.bind TrackChild.asClipId <;>
        simp [applyRightTransition, Option.some_bind, TrackChild.asTransition,
          if_pos hgt, hc, transitionValue]
    · cases hc : n2.bind TrackChild.asClipId <;>
        simp [applyRightTransition, Option.some_bind, TrackChild.asTransition,
          if_pos hgt, hc, initialLayer_clip]
    · intro cB rB hn2
      subst hn2
      simp [applyRightTransition, Option.some_bind, TrackChild.asTransition,
        if_pos hgt, TrackChild.asClipId]
  · intro tr hp1 hlt
    subst hp1
    refine ⟨applyLeftTransition p2 (some (TrackChild.transition tr)) range t
      (applyRightTransition n1 n2 range t (initialLayer (TrackChild.clip cid range) t)),
      ?_, ?_, ?_, ?_, ?_⟩
    · simp [layerFor, TrackChild.itemRange, hcont]
    · cases hc : p2.bind TrackChild.asClipId <;>
        simp [applyLeftTransition, Option.some_bind, TrackChild.asTransition,
          if_pos hlt, hc]
    · cases hc : p2.bind TrackChild.asClipId <;>
        simp [applyLeftTransition, Option.some_bind, TrackChild.asTransition,
          if_pos hlt, hc, transitionValue]
    · cases hc : p2.bind TrackChild.asClipId <;>
        simp [applyLeftTransition, Option.some_bind, TrackChild.asTransition,
          if_pos hlt, hc]
    · intro cB rB hp2
      subst hp2
      simp [applyLeftTransition, Option.some_bind, TrackChild.asTransition,
        if_pos hlt, TrackChild.asClipId]

/-- Claim C3 — witness: the right-neighbor rule at the dissolve track of end-to-end
scenario 2, track time 45 (no left neighbor, so the side condition holds). -/
theorem transition_rules_amended_witness :
    (⟨0, 48⟩ : TimeRange).containsQ 45 = true ∧
    (∃ d, layerFor Option.none Option.none (TrackChild.clip 0 ⟨0, 48⟩)
        (some (TrackChild.transition ⟨SMPTE_Dissolve, 6, 6⟩))
        (some (TrackChild.clip 1 ⟨48, 48⟩)) 45 = some d ∧
      d.transition = toTransition (⟨SMPTE_Dissolve, (6:ℚ), (6:ℚ)⟩ : OtioTransition).transition_type ∧
      d.transitionValue =
        (45 - ((⟨0, 48⟩ : TimeRange).end_time_inclusive - (6:ℚ))) /
          (((⟨0, 48⟩ : TimeRange).end_time_inclusive + (6:ℚ) + 1) -
            ((⟨0, 48⟩ : TimeRange).end_time_inclusive - (6:ℚ))) ∧
      d.image = ImageSrc.read 0 45 ∧
      (∀ cB rB, some (TrackChild.clip 1 ⟨48, 48⟩) = some (TrackChild.clip cB rB) →
        d.imageB = ImageSrc.read cB 45)) := by
  have hcont : (⟨0, 48⟩ : TimeRange).containsQ 45 = true := by
    norm_num [TimeRange.containsQ, TimeRange.end_time_exclusive]
  refine ⟨hcont, ?_⟩
  exact (transition_rules_amended Option.none Option.none 0 ⟨0, 48⟩
      (some (TrackChild.transition ⟨SMPTE_Dissolve, 6, 6⟩))
      (some (TrackChild.clip 1 ⟨48, 48⟩)) 45 hcont).1
    ⟨SMPTE_Dissolve, 6, 6⟩ rfl
    (by norm_num [TimeRange.end_time_inclusive])
    (by simp [leftZoneFires])

/-- Bool containment unfolded to its ordering facts. -/
theorem containsQ_eq_false_iff (r : TimeRange) (t : ℚ) :
    r.containsQ t = false ↔ ¬(r.start_time ≤ t ∧ t < r.start_time + r.duration) := by
  simp [TimeRange.containsQ, TimeRange.end_time_exclusive, Decidable.not_and_iff_or_not,
    or_iff_not_imp_left]

/-- Claim C4 — counterexample. Two 48-frame clips joined by a dissolve with
`inOffset = outOffset = 6`: `itemEndInclusive = 47`, and at `t =
itemEndInclusive + outOffset + 1 = 54` the produced layer (from the right
clip) has `transitionPhase = 0` and no transition — not `1` as claimed,
because the transition branches compare strictly and exclude this boundary. -/
theorem transition_boundary_cex :
    trackLayers exampleDissolveTrack 54 = [{ image := ImageSrc.read 1 54 }] ∧
    (54 : ℚ) = (⟨0, 48⟩ : TimeRange).end_time_inclusive + 6 + 1 ∧
    ({ image := ImageSrc.read 1 54 } : LayerData).transitionValue = 0 ∧
    ((0 : ℚ) ≠ 1) := by
  refine ⟨?_, ?_, rfl, by norm_num⟩
  · norm_num [trackLayers, exampleDissolveTrack, trackLayersAux, nextTwo, layerFor,
      applyLeftTransition, applyRightTransition, initialLayer, TimeRange.containsQ,
      TimeRange.end_time_exclusive, TimeRange.end_time_inclusive, toTransition,
      SMPTE_Dissolve, transitionValue, TrackChild.itemRange, TrackChild.asTransition,
      TrackChild.asClipId]
  · norm_num [TimeRange.end_time_inclusive]

/-- Claim C4 — amended: for a transition with in-offset `a` and out-offset
`b` between two adjacent clips, the layer produced at `t = itemEndInclusive -
a` has `transitionPhase = 0` — but with no transition set, since the strict
comparison excludes the boundary — and the layer produced at `t =
itemEndInclusive + b + 1` (by the right-neighbor clip) likewise has
`transitionPhase = 0` with no transition. The phase FORMULA `(t - a')/(b' -
a')` does attain `0` at the first boundary and `1` at the second; the produced
layers never do. -/
theorem transition_boundary_amended
    (cid0 cid1 : Nat) (ty : String) (a b : ℚ) (rA rB : TimeRange)
    (ha : 0 ≤ a) (hb : 0 ≤ b)
    (hadj : rB.start_time = rA.start_time + rA.duration)
    (h0 : rA.containsQ (rA.end_time_inclusive - a) = true)
    (h1 : rB.containsQ (rA.end_time_inclusive + b + 1) = true) :
    trackLayers [TrackChild.clip cid0 rA, TrackChild.transition ⟨ty, a, b⟩,
        TrackChild.clip cid1 rB] (rA.end_time_inclusive - a) =
      [{ image := ImageSrc.read cid0 (rA.end_time_inclusive - a) }] ∧
    trackLayers [TrackChild.clip cid0 rA, TrackChild.transition ⟨ty, a, b⟩,
        TrackChild.clip cid1 rB] (rA.end_time_inclusive + b + 1) =
      [{ image := ImageSrc.read cid1 (rA.end_time_inclusive + b + 1) }] ∧
    transitionValue (rA.end_time_inclusive - a) (rA.end_time_inclusive - a)
        (rA.end_time_inclusive + b + 1) = 0 ∧
    transitionValue (rA.end_time_inclusive + b + 1) (rA.end_time_inclusive - a)
        (rA.end_time_inclusive + b + 1) = 1 := by
  have hB0 : rB.containsQ (rA.end_time_inclusive - a) = false := by
    rw [containsQ_eq_false_iff]
    rintro ⟨hle, -⟩
    rw [hadj] at hle
    unfold TimeRange.end_time_inclusive at hle
    linarith
  have hA1 : rA.containsQ (rA.end_time_inclusive + b + 1) = false := by
    rw [containsQ_eq_false_iff]
    rintro ⟨-, hlt⟩
    unfold TimeRange.end_time_inclusive at hlt
    linarith
  have ht1 : ¬(rA.end_time_inclusive + b + 1 < rB.start_time + b) := by
    rw [hadj]
    unfold TimeRange.end_time_inclusive
    intro h
    linarith
  refine ⟨?_, ?_, ?_, ?_⟩
  · simp [trackLayers, trackLayersAux, nextTwo, layerFor, TrackChild.itemRange, h0, hB0,
      applyLeftTransition, applyRightTransition, Option.some_bind, Option.none_bind,
      TrackChild.asTransition, initialLayer_clip, lt_self_iff_false]
  · simp [trackLayers, trackLayersAux, nextTwo, layerFor, TrackChild.itemRange, h1, hA1,
      applyLeftTransition, applyRightTransition, Option.some_bind, Option.none_bind,
      TrackChild.asTransition, initialLayer_clip, ht1]
  · simp [transitionValue]
  · have hne : rA.end_time_inclusive + b + 1 - (rA.end_time_inclusive - a) ≠ 0 := by
      intro h
      have : a + b + 1 = 0 := by linarith [h]
      linarith
    simp only [transitionValue]
    rw [div_self hne]

/-- Claim C4 — witness at the dissolve track of end-to-end scenario 2
(`a = b = 6`, clips `[0,48)` and `[48,96)`). -/
theorem transition_boundary_amended_witness :
    (⟨48, 48⟩ : TimeRange).start_time = (⟨0, 48⟩ : TimeRange).start_time +
        (⟨0, 48⟩ : TimeRange).duration ∧
    (trackLayers [TrackChild.clip 0 ⟨0, 48⟩,
        TrackChild.transition ⟨SMPTE_Dissolve, 6, 6⟩, TrackChild.clip 1 ⟨48, 48⟩]
        ((⟨0, 48⟩ : TimeRange).end_time_inclusive - 6) =
      [{ image := ImageSrc.read 0 ((⟨0, 48⟩ : TimeRange).end_time_inclusive - 6) }] ∧
    trackLayers [TrackChild.clip 0 ⟨0, 48⟩,
        TrackChild.transition ⟨SMPTE_Dissolve, 6, 6⟩, TrackChild.clip 1 ⟨48, 48⟩]
        ((⟨0, 48⟩ : TimeRange).end_time_inclusive + 6 + 1) =
      [{ image := ImageSrc.read 1 ((⟨0, 48⟩ : TimeRange).end_time_inclusive + 6 + 1) }] ∧
    transitionValue ((⟨0, 48⟩ : TimeRange).end_time_inclusive - 6)
        ((⟨0, 48⟩ : TimeRange).end_time_inclusive - 6)
        ((⟨0, 48⟩ : TimeRange).end_time_inclusive + 6 + 1) = 0 ∧
    transitionValue ((⟨0, 48⟩ : TimeRange).end_time_inclusive + 6 + 1)
        ((⟨0, 48⟩ : TimeRange).end_time_inclusive - 6)
        ((⟨0, 48⟩ : TimeRange).end_time_inclusive + 6 + 1) = 1) := by
  refine ⟨by norm_num, ?_⟩
  exact transition_boundary_amended 0 1 SMPTE_Dissolve 6 6 ⟨0, 48⟩ ⟨48, 48⟩
    (by norm_num) (by norm_num) (by norm_num)
    (by norm_num [TimeRange.containsQ, TimeRange.end_time_exclusive,
      TimeRange.end_time_inclusive])
    (by norm_num [TimeRange.containsQ, TimeRange.end_time_exclusive,
      TimeRange.end_time_inclusive])

/-- The effect fold of `readVideoFrame` from any scale accumulator: zero
offsets stay zero and the scales multiply up. -/
theorem clipTimeTransform_foldl (l : List ℚ) : ∀ k : ℚ,
    l.foldl (fun acc s => TimeTransform.applied_to_transform ⟨⟨0, 1⟩, s⟩ acc)
        ⟨⟨0, 1⟩, k⟩ =
      ⟨⟨0, 1⟩, l.foldl (· * ·) k⟩ := by
  induction l with
  | nil => intro k; rfl
  | cons s rest ih =>
    intro k
    have hstep : TimeTransform.applied_to_transform ⟨⟨0, 1⟩, s⟩ ⟨⟨0, 1⟩, k⟩ =
        ⟨⟨0, 1⟩, s * k⟩ := by
      simp [TimeTransform.applied_to_transform, RationalTime.add]
    rw [List.foldl_cons, List.foldl_cons, hstep, ih (s * k), mul_comm s k]

/-- The accumulated clip time transform is the plain product of the warp
scalars with a zero offset. -/
theorem clipTimeTransform_eq (l : List ℚ) :
    clipTimeTransform l = ⟨⟨0, 1⟩, l.foldl (· * ·) 1⟩ :=
  clipTimeTransform_foldl l 1

/-- Claim C5: for a clip whose times share the track rate `r ≥ 1`, the media
time computed by `Timeline::Private::readVideoFrame` — transition-adjusted
start, track-to-clip transform, composed linear warps applied to the offset
from the start, rescale to the media's native rate, floor to the frame grid —
coincides with the spec's `mediaTimeOf` derivation written as one arithmetic
formula. -/
theorem readVideoFrameTime_eq_spec (c : ClipModel) (t : RationalTime) (r : ℚ)
    (hr1 : 1 ≤ r)
    (ht : t.rate = r)
    (htr : c.trimmedRangeStart.rate = r)
    (hrip : c.rangeInParentStart.rate = r)
    (hlt : ∀ tr, c.leftTransition = some tr → tr.in_offset.rate = r) :
    readVideoFrameTime c t = mediaTimeOf_spec c t := by
  have hr0 : (0 : ℚ) < r := lt_of_lt_of_le one_pos hr1
  have hrne : r ≠ 0 := ne_of_gt hr0
  have hnlt : ¬(r < 1) := not_lt.mpr hr1
  have hnlt2 : ¬(r < r) := lt_irrefl r
  cases hltc : c.leftTransition with
  | none =>
    simp only [readVideoFrameTime, mediaTimeOf_spec, hltc, clipTimeTransform_eq,
      transformedTimeTrackToClip, RationalTime.sub, RationalTime.add,
      RationalTime.rescaled_to, TimeTransform.applied_to_time, ht, htr, hrip,
      if_neg hnlt, if_neg hnlt2]
    congr 2
    field_simp
    congr 1
    ring
  | some tr =>
    have htri : tr.in_offset.rate = r := hlt tr hltc
    simp only [readVideoFrameTime, mediaTimeOf_spec, hltc, clipTimeTransform_eq,
      transformedTimeTrackToClip, RationalTime.sub, RationalTime.add,
      RationalTime.rescaled_to, TimeTransform.applied_to_time, ht, htr, hrip, htri,
      if_neg hnlt, if_neg hnlt2]
    congr 2
    field_simp
    congr 1
    ring

/-- Claim C5 — witness at a concrete clip: one 2x warp, trimmed start 12, a
left transition reaching 6 frames in, 24 fps track times, 30 fps media,
reading track time 30. -/
theorem readVideoFrameTime_eq_spec_witness :
    (1 : ℚ) ≤ 24 ∧
    readVideoFrameTime exampleClip ⟨30, 24⟩ = mediaTimeOf_spec exampleClip ⟨30, 24⟩ := by
  refine ⟨by norm_num, ?_⟩
  exact readVideoFrameTime_eq_spec exampleClip ⟨30, 24⟩ 24
    (by norm_num) rfl rfl rfl
    (by intro tr h
        simp only [exampleClip] at h
        injection h with h2
        rw [← h2])

/-- Claim C6: a reader is stopped and moved to the reap list exactly when its
effective range (trimmed range extended by the neighboring transition handles,
translated into the global domain) intersects no active range AND it reports
no pending video frames; otherwise it stays in the registry. -/
theorem stopReaders_exactly_when (g : ℚ) (ar : List TimeRange)
    (readers : List ReaderEntry) (e : ReaderEntry) :
    (shouldStop g ar e = true ↔
      (∀ a ∈ ar, (readerRange g e).intersectsR a = false) ∧
        e.hasVideoFrames = false) ∧
    (e ∈ (stopReadersFn g ar readers).2 ↔ e ∈ readers ∧ shouldStop g ar e = true) ∧
    (e ∈ (stopReadersFn g ar readers).1 ↔ e ∈ readers ∧ shouldStop g ar e = false) := by
  refine ⟨?_, ?_, ?_⟩
  · simp [shouldStop, List.all_eq_true, Bool.and_eq_true, Bool.not_eq_true']
  · simp [stopReadersFn, List.mem_filter]
  · simp [stopReadersFn, List.mem_filter]

/-- The promotion loop never brings the in-flight total above the budget: if
the loop starts within budget it ends within budget. -/
theorem gatherNew_length_le (reqs : List Request) : ∀ (acc : List Request) (ip b : Nat),
    ip + acc.length ≤ b → ip + (gatherNew reqs acc ip b).2.length ≤ b := by
  induction reqs with
  | nil => intro acc ip b h; simpa [gatherNew] using h
  | cons r rest ih =>
    intro acc ip b h
    rw [gatherNew]
    split
    · next hlt =>
      have := ih (acc ++ [r]) ip b (by simp; omega)
      simpa using this
    · simpa using h

/-- One operation preserves the in-flight budget invariant and the configured
budget itself. -/
theorem stepOp_invariant (s : TimelineState) (op : SchedulerOp)
    (h : s.requestsInProgress.length ≤ s.requestCount) :
    (stepOp s op).requestsInProgress.length ≤ (stepOp s op).requestCount ∧
    (stepOp s op).requestCount = s.requestCount := by
  cases op with
  | submit t l =>
    simp only [stepOp, getFrameFn]
    split
    · exact ⟨h, rfl⟩
    · exact ⟨h, rfl⟩
  | tick fill =>
    constructor
    · simp only [stepOp, tickFn, frameRequestsFn, promote, completeRequests]
      refine le_trans (List.length_filter_le _ _) ?_
      rw [List.length_append, List.length_map]
      exact gatherNew_length_le s.requests [] s.requestsInProgress.length
        s.requestCount (by simpa using h)
    · rfl

/-- Claim C7: starting from an empty in-flight list with any configured budget
`b`, no interleaving of submissions and scheduler ticks ever brings the
in-flight count above `b` (the promotion loop moves a pending request only
while `inFlight + promoted < b`), and the default budget is 16. -/
theorem inflight_never_exceeds_budget (ops : List SchedulerOp) (b : Nat) :
    (runOps ops { requestCount := b }).requestsInProgress.length ≤ b ∧
    ({} : TimelineState).requestCount = 16 := by
  constructor
  · have main : ∀ (ops2 : List SchedulerOp) (s : TimelineState),
        s.requestsInProgress.length ≤ s.requestCount →
        (runOps ops2 s).requestsInProgress.length ≤ (runOps ops2 s).requestCount ∧
        (runOps ops2 s).requestCount = s.requestCount := by
      intro ops2
      induction ops2 with
      | nil => intro s h; exact ⟨h, rfl⟩
      | cons op rest ih =>
        intro s h
        have hstep := stepOp_invariant s op h
        have hrest := ih (stepOp s op) hstep.1
        exact ⟨hrest.1, hrest.2.trans hstep.2⟩
    have hm := main ops { requestCount := b } (by simp)
    calc (runOps ops { requestCount := b }).requestsInProgress.length
        ≤ (runOps ops { requestCount := b }).requestCount := hm.1
      _ = b := hm.2
  · rfl

/-- In a list made of dispatch events followed by non-dispatch events, every
dispatch index precedes every eviction index. -/
theorem dispatch_precedes (D rest : List TickEvent) (i j : Nat)
    (t : RationalTime) (c : Nat)
    (hD : ∀ x ∈ D, ∃ u, x = TickEvent.dispatch u)
    (hrest : ∀ x ∈ rest, ∀ u, x ≠ TickEvent.dispatch u)
    (hi : (D ++ rest).get? i = some (TickEvent.dispatch t))
    (hj : (D ++ rest).get? j = some (TickEvent.evict c)) :
    i < j := by
  have hiD : i < D.length := by
    by_contra hcon
    push_neg at hcon
    rw [List.get?_append_right hcon] at hi
    exact hrest _ (List.get?_mem hi) t rfl
  have hjD : D.length ≤ j := by
    by_contra hcon
    push_neg at hcon
    rw [List.get?_append hcon] at hj
    obtain ⟨u, hu⟩ := hD _ (List.get?_mem hj)
    exact TickEvent.noConfusion hu
  omega

/-- The trace of one tick, flattened: dispatches, then evictions, then reaps. -/
theorem tickFn_trace (fill : Request → List RLayerData) (s : TimelineState) :
    (tickFn fill s).2.2 =
      (frameRequestsFn fill s).2.2 ++
        ((stopReadersFn (frameRequestsFn fill s).1.globalStartTime
            (frameRequestsFn fill s).1.activeRanges
            (frameRequestsFn fill s).1.readers).2.map (fun e => TickEvent.evict e.clip) ++
          (((frameRequestsFn fill s).1.stoppedReaders ++
              (stopReadersFn (frameRequestsFn fill s).1.globalStartTime
                (frameRequestsFn fill s).1.activeRanges
                (frameRequestsFn fill s).1.readers).2).filter
              ReaderEntry.hasStopped).map (fun e => TickEvent.reap e.clip)) := by
  simp [tickFn, List.append_assoc]

/-- Claim C8: within one scheduler tick, every dispatch of a newly promoted
request happens strictly before every reader eviction of that tick
(`frameRequests()` runs before `stopReaders()`), so a request promoted in a
tick is never orphaned by a same-tick eviction. -/
theorem tick_dispatch_before_evict (fill : Request → List RLayerData)
    (s : TimelineState) (i j : Nat) (t : RationalTime) (c : Nat)
    (hi : (tickFn fill s).2.2.get? i = some (TickEvent.dispatch t))
    (hj : (tickFn fill s).2.2.get? j = some (TickEvent.evict c)) :
    i < j := by
  rw [tickFn_trace] at hi hj
  refine dispatch_precedes _ _ i j t c ?_ ?_ hi hj
  · intro x hx
    simp only [frameRequestsFn] at hx
    obtain ⟨r, -, rfl⟩ := List.mem_map.mp hx
    exact ⟨r.time, rfl⟩
  · intro x hx u
    rcases List.mem_append.mp hx with h | h <;>
      · obtain ⟨e, -, rfl⟩ := List.mem_map.mp h
        intro hcon
        exact TickEvent.noConfusion hcon

/-- Claim C8 — witness: a tick at a state with one pending request and one
idle reader dispatches at index 0 and evicts at index 1. -/
theorem tick_dispatch_before_evict_witness :
    (tickFn (fun _ => []) exampleTickState).2.2.get? 0 =
        some (TickEvent.dispatch ⟨5, 24⟩) ∧
    (tickFn (fun _ => []) exampleTickState).2.2.get? 1 =
        some (TickEvent.evict 7) ∧
    (0 : Nat) < 1 := by
  have h0 : (tickFn (fun _ => []) exampleTickState).2.2.get? 0 =
      some (TickEvent.dispatch ⟨5, 24⟩) := by
    simp [tickFn, frameRequestsFn, promote, gatherNew, completeRequests,
      stopReadersFn, shouldStop, delReadersFn, exampleTickState, exampleReader,
      Request.allReady]
  have h1 : (tickFn (fun _ => []) exampleTickState).2.2.get? 1 =
      some (TickEvent.evict 7) := by
    simp [tickFn, frameRequestsFn, promote, gatherNew, completeRequests,
      stopReadersFn, shouldStop, delReadersFn, exampleTickState, exampleReader,
      Request.allReady]
  exact ⟨h0, h1, tick_dispatch_before_evict (fun _ => []) exampleTickState 0 1
    ⟨5, 24⟩ 7 h0 h1⟩

/-- Claim C9: a frame fulfilled by the completion scan always comes from a
request ALL of whose valid per-layer futures (primary and secondary) poll
ready, and it carries one assembled layer per `LayerData` — never a strict
subset of the request's layer images. -/
theorem completion_requires_all_ready (l : List Request) (f : Frame)
    (hf : f ∈ (completeRequests l).2) :
    ∃ r ∈ l, r.allReady = true ∧ f = assembleFrame r ∧
      f.time = r.time ∧
      f.layers.length = r.layerData.length ∧
      ∀ d ∈ r.layerData,
        (d.image.valid = true → d.image.ready = true) ∧
        (d.imageB.valid = true → d.imageB.ready = true) := by
  simp only [completeRequests] at hf
  obtain ⟨r, hrmem, rfl⟩ := List.mem_map.mp hf
  obtain ⟨hrl, hready⟩ := List.mem_filter.mp hrmem
  refine ⟨r, hrl, hready, rfl, rfl, by simp [assembleFrame], ?_⟩
  intro d hd
  unfold Request.allReady at hready
  have hall := List.all_eq_true.mp hready d hd
  unfold RLayerData.allReady at hall
  simp only [Bool.and_eq_true] at hall
  obtain ⟨h1, h2⟩ := hall
  constructor
  · intro hv
    simp only [hv, Bool.not_true, Bool.false_or] at h1
    exact h1
  · intro hv
    simp only [hv, Bool.not_true, Bool.false_or] at h2
    exact h2

/-- Claim C9 — witness: a singleton in-progress list whose request's only
future is valid and ready. -/
theorem completion_requires_all_ready_witness :
    assembleFrame exampleReadyRequest ∈ (completeRequests [exampleReadyRequest]).2 ∧
    ∃ r ∈ [exampleReadyRequest], r.allReady = true ∧
      assembleFrame exampleReadyRequest = assembleFrame r ∧
      (assembleFrame exampleReadyRequest).time = r.time ∧
      (assembleFrame exampleReadyRequest).layers.length = r.layerData.length ∧
      ∀ d ∈ r.layerData,
        (d.image.valid = true → d.image.ready = true) ∧
        (d.imageB.valid = true → d.imageB.ready = true) := by
  have hf : assembleFrame exampleReadyRequest ∈
      (completeRequests [exampleReadyRequest]).2 := by
    simp [completeRequests, exampleReadyRequest, Request.allReady, RLayerData.allReady]
  exact ⟨hf, completion_requires_all_ready [exampleReadyRequest] _ hf⟩

/-- Claim C10: once the scheduler thread has exited (`stopped` set),
`getFrame` leaves the pending queue untouched and immediately resolves the
returned future with a default-constructed Frame — empty layers and the
invalid time, not the requested time. -/
theorem getFrame_after_stop (s : TimelineState) (t : RationalTime) (l : Nat)
    (hs : s.stopped = true) (ht : t ≠ invalidTime) :
    getFrameFn s t l = (s, FrameFuture.resolved { time := invalidTime, layers := [] }) ∧
    ({ time := invalidTime, layers := [] } : Frame).time ≠ t := by
  constructor
  · simp [getFrameFn, hs]
  · exact fun h => ht h.symm

/-- Claim C10 — witness at a stopped facade and request time 10/24. -/
theorem getFrame_after_stop_witness :
    exampleStoppedState.stopped = true ∧
    (⟨10, 24⟩ : RationalTime) ≠ invalidTime ∧
    getFrameFn exampleStoppedState ⟨10, 24⟩ 0 =
      (exampleStoppedState, FrameFuture.resolved { time := invalidTime, layers := [] }) := by
  have ht : (⟨10, 24⟩ : RationalTime) ≠ invalidTime := by
    simp only [invalidTime, ne_eq, RationalTime.mk.injEq, not_and]
    intro h
    norm_num at h
  exact ⟨rfl, ht,
    (getFrame_after_stop exampleStoppedState ⟨10, 24⟩ 0 rfl ht).1⟩

end Tlr
